import Mathlib

/-!
Verification of `deep_rl/metrics.py`: a shallow embedding of the metrics
aggregation layer (Mean, AccumulatedMetric, LastValue, MetricsContext) with
floats modelled as rationals and tensor values as scalars or flat arrays.
-/

namespace Metrics

/-- A coerced numeric value after `to_tensor`: either a 0-dim scalar tensor or
a 1-dim array tensor of shape `(n,)`. -/
inductive MValue where
  | scalar (x : ℚ)
  | arr (xs : List ℚ)
  deriving DecidableEq, Repr

/-- `tensor.cpu().item()`: succeeds exactly when the tensor holds one element. -/
def MValue.item : MValue → Option ℚ
  | .scalar x => some x
  | .arr [x] => some x
  | .arr _ => none

/-- A value returned by `report`: `full_stats=True` on a `Mean` yields the
python tuple `(cumsum, samples)` (modelled as `tup [c, s]`); every other report
is a single scalar.  `tup` carries an arbitrary-length list because the
scatter step of `collect` rebuilds tuples from slices. -/
inductive RVal where
  | single (x : ℚ)
  | tup (xs : List ℚ)
  deriving DecidableEq, Repr

/-- State of a `Mean` aggregator: `is_distributed` from `Metric.__init__`,
`cumsum` and `samples` from `Mean.reset_states` / `Mean.update_state`. -/
structure Mean where
  is_distributed : Bool
  cumsum : ℚ
  samples : ℚ
  deriving DecidableEq, Repr

/-- `Mean(is_distributed=d)`: `Metric.__init__` stores the flag and calls
`reset_states`, zeroing both accumulators. -/
def Mean.new (d : Bool) : Mean := ⟨d, 0, 0⟩

/-- `Mean.reset_states`. -/
def Mean.reset_states (m : Mean) : Mean := { m with cumsum := 0, samples := 0 }

/-- `Mean.update_state(value, weight=None)`.  After `to_tensor`, `value` always
has a `shape`, so when `weight is None` the code sets
`weight = torch.prod(to_tensor(value.shape))` and `value = value.sum()`:
for a 0-dim scalar the shape is `()` and the empty product is `1`; for shape
`(n,)` the product is `n`.  Both accumulations go through `.cpu().item()`,
which fails unless the tensor holds exactly one element. -/
def Mean.update_state (m : Mean) (value : MValue) (weight : Option ℚ) : Option Mean :=
  let vw : MValue × ℚ :=
    match weight with
    | none =>
        match value with
        | .scalar x => (.scalar x, 1)
        | .arr xs => (.scalar xs.sum, (xs.length : ℚ))
    | some w => (value, w)
  match vw.1.item with
  | none => none
  | some v => some { m with cumsum := m.cumsum + v, samples := m.samples + vw.2 }

/-- `Mean.report(full_stats)`. -/
def Mean.report (m : Mean) (full_stats : Bool) : RVal :=
  if full_stats then .tup [m.cumsum, m.samples]
  else if m.samples = 0 then .single 0
  else .single (m.cumsum / m.samples)

/-- A sequence of `update_state` calls; any failing update propagates. -/
def Mean.updates : Mean → List (MValue × Option ℚ) → Option Mean
  | m, [] => some m
  | m, (v, w) :: rest =>
      match m.update_state v w with
      | none => none
      | some m' => Mean.updates m' rest

lemma Mean.update_state_scalar (m : Mean) (x : ℚ) (w : Option ℚ) :
    m.update_state (.scalar x) w =
      some { m with cumsum := m.cumsum + x, samples := m.samples + w.getD 1 } := by
  cases w <;> rfl

/-- Closed form of a run of scalar updates with explicit weights. -/
lemma Mean.updates_weighted (l : List (ℚ × ℚ)) (m : Mean) :
    Mean.updates m (l.map fun p => (MValue.scalar p.1, some p.2)) =
      some { m with cumsum := m.cumsum + (l.map Prod.fst).sum,
                    samples := m.samples + (l.map Prod.snd).sum } := by
  induction l generalizing m with
  | nil => simp [Mean.updates]
  | cons p rest ih =>
      simp only [List.map_cons, Mean.updates, Mean.update_state_scalar, List.sum_cons]
      rw [ih]
      congr 1
      simp only [Option.getD]
      ring_nf

/-- Unweighted scalar updates. -/
lemma Mean.updates_unweighted (xs : List ℚ) (m : Mean) :
    Mean.updates m (xs.map fun x => (MValue.scalar x, none)) =
      some { m with cumsum := m.cumsum + xs.sum, samples := m.samples + xs.length } := by
  induction xs generalizing m with
  | nil => simp [Mean.updates]
  | cons x rest ih =>
      simp only [List.map_cons, Mean.updates, Mean.update_state_scalar, List.sum_cons,
        List.length_cons]
      rw [ih]
      congr 1
      simp only [Option.getD]
      push_cast
      ring_nf

/-- State of an `AccumulatedMetric`: the `is_distributed` flag, the configured
binary combine function `_accumulate` (absent when neither the subclass nor the
constructor supplied one), and the accumulated scalar `value`. -/
structure AccumulatedMetric where
  is_distributed : Bool
  accumulate : Option (ℚ → ℚ → ℚ)
  value : ℚ

/-- `AccumulatedMetric.__init__(accumulate_fn=None, is_distributed=d)`:
`if not hasattr(self, '_accumulate'): self._accumulate = accumulate_fn` — a
class-defined combine (`classCombine`, as in `LastValue`) wins and the
externally supplied `accumulate_fn` is ignored; otherwise `accumulate_fn`
(possibly absent) is installed.  `Metric.__init__` then resets `value` to 0. -/
def AccumulatedMetric.init (classCombine accumulate_fn : Option (ℚ → ℚ → ℚ))
    (d : Bool) : AccumulatedMetric :=
  ⟨d, match classCombine with
      | some f => some f
      | none => accumulate_fn, 0⟩

/-- `AccumulatedMetric.reset_states`. -/
def AccumulatedMetric.reset_states (m : AccumulatedMetric) : AccumulatedMetric :=
  { m with value := 0 }

/-- `AccumulatedMetric.update_state(value)`: computes
`self._accumulate(self.value, to_tensor(value).cpu().item())`; fails when
`_accumulate` is `None` (a `TypeError` at the call) or when `.item()` is
applied to a tensor that is not a single element. -/
def AccumulatedMetric.update_state (m : AccumulatedMetric) (value : MValue) :
    Option AccumulatedMetric :=
  match m.accumulate, value.item with
  | some f, some x => some { m with value := f m.value x }
  | _, _ => none

/-- `AccumulatedMetric.report(full_stats)`: returns the raw accumulated
scalar; `full_stats` has no effect. -/
def AccumulatedMetric.report (m : AccumulatedMetric) (full_stats : Bool) : ℚ :=
  m.value

/-- A sequence of `update_state` calls; any failing update propagates. -/
def AccumulatedMetric.updates : AccumulatedMetric → List MValue → Option AccumulatedMetric
  | m, [] => some m
  | m, v :: rest =>
      match m.update_state v with
      | none => none
      | some m' => AccumulatedMetric.updates m' rest

/-- `LastValue._accumulate(acc, value)`: discards the accumulator. -/
def LastValue.accumulate (acc value : ℚ) : ℚ := value

/-- `LastValue(accumulate_fn=..., is_distributed=d)`: the class defines
`_accumulate`, so `AccumulatedMetric.__init__` leaves it in place. -/
def LastValue.init (accumulate_fn : Option (ℚ → ℚ → ℚ)) (d : Bool) : AccumulatedMetric :=
  AccumulatedMetric.init (some LastValue.accumulate) accumulate_fn d

/-- Closed form of a run of scalar updates with a configured combine `f`. -/
lemma AccumulatedMetric.updates_scalars (f : ℚ → ℚ → ℚ) (d : Bool) (v : ℚ)
    (xs : List ℚ) :
    AccumulatedMetric.updates ⟨d, some f, v⟩ (xs.map MValue.scalar) =
      some ⟨d, some f, xs.foldl f v⟩ := by
  induction xs generalizing v with
  | nil => rfl
  | cons x rest ih =>
      simpa [AccumulatedMetric.updates, AccumulatedMetric.update_state, MValue.item]
        using ih (f v x)

/-- An aggregator stored in a `MetricsContext`: a `Mean` or an
`AccumulatedMetric` (which includes `LastValue`). -/
inductive Metric where
  | mean (m : Mean)
  | accum (m : AccumulatedMetric)

/-- The `is_distributed` flag set by `Metric.__init__`. -/
def Metric.is_distributed : Metric → Bool
  | .mean m => m.is_distributed
  | .accum m => m.is_distributed

/-- `reset_states`, dispatched to the variant. -/
def Metric.reset_states : Metric → Metric
  | .mean m => .mean m.reset_states
  | .accum m => .accum m.reset_states

/-- `report(full_stats)`, dispatched to the variant. -/
def Metric.report (m : Metric) (full_stats : Bool) : RVal :=
  match m with
  | .mean m => m.report full_stats
  | .accum m => .single (m.report full_stats)

/-- `update_state(*args, **kwargs)` dispatch, where the only keyword argument
in use is `weight`.  `Mean.update_state` takes one or two positional arguments
(a positional second argument is the weight, put through `.item()`);
`AccumulatedMetric.update_state` takes exactly one and no `weight` keyword;
any other combination is a `TypeError`. -/
def Metric.update_state : Metric → List MValue → Option ℚ → Option Metric
  | .mean m, [v], w => (m.update_state v w).map .mean
  | .mean m, [v, w], none =>
      match w.item with
      | some wq => (m.update_state v (some wq)).map .mean
      | none => none
  | .accum m, [v], none => (m.update_state v).map .accum
  | _, _, _ => none

/-- Outcome of `Metric.__call__`: an update (python returns `None`, mutating
the aggregator to `m`), a report, or a raised exception. -/
inductive CallResult where
  | updated (m : Metric)
  | reported (v : RVal)
  | error

/-- `Metric.__call__(*args, full_stats=False, **kwargs)`: with at least one
positional argument it dispatches to `update_state(*args, **kwargs)`,
otherwise to `report(full_stats=full_stats)`. -/
def Metric.call (m : Metric) (args : List MValue) (weight : Option ℚ)
    (full_stats : Bool) : CallResult :=
  if 0 < args.length then
    match m.update_state args weight with
    | some m' => .updated m'
    | none => .error
  else .reported (m.report full_stats)

/-- `MetricsContext`: the ordered mapping `self.metrics` from name to
aggregator (an `OrderedDict`, so keys are unique and insertion order is
kept). -/
structure MetricsContext where
  metrics : List (String × Metric)

/-- `MetricsContext.__getitem__`: get-or-create — an absent key is first bound
to a fresh default `Mean()`.  Returns the aggregator together with the
(possibly extended) context. -/
def MetricsContext.getitem (c : MetricsContext) (idx : String) :
    Metric × MetricsContext :=
  match c.metrics.lookup idx with
  | some m => (m, c)
  | none =>
      let m := Metric.mean (Mean.new false)
      (m, ⟨c.metrics ++ [(idx, m)]⟩)

/-- `name in context` resolves to `collections.abc.Mapping.__contains__`,
which evaluates `self[name]` and answers `False` only on `KeyError`; since
`__getitem__` never raises, the query always answers `True`, and keeps
`__getitem__`'s insertion side effect. -/
def MetricsContext.contains (c : MetricsContext) (idx : String) :
    Bool × MetricsContext :=
  (true, (c.getitem idx).2)

/-- `MetricsContext.log(name, *args, **kwargs)`: `self[name](*args, **kwargs)`.
Python discards the call's result; it is kept here to observe which operation
ran.  An update replaces the stored aggregator's state in place. -/
def MetricsContext.log (c : MetricsContext) (name : String) (args : List MValue)
    (weight : Option ℚ) (full_stats : Bool) : CallResult × MetricsContext :=
  let mc := c.getitem name
  match mc.1.call args weight full_stats with
  | .updated m' =>
      (.updated m', ⟨mc.2.metrics.map fun p => if p.1 = name then (p.1, m') else p⟩)
  | r => (r, mc.2)

/-- The gather loop of `collect`, walking the metrics in insertion order (as
`self.metrics` has unique keys, `vals[name]` is exactly the entry's report):
a distributed aggregator whose reported value is a tuple has its elements
appended to `distributed_vals` and its arity to `distributed_lens`; for any
other distributed aggregator the code appends a length of `1` and the key but
nothing to `distributed_vals` (the `else` branch of the source has no append).
Returns `(distributed_vals, distributed_keys, distributed_lens)`. -/
def gather (full_stats : Bool) : List (String × Metric) → List ℚ × List String × List Nat
  | [] => ([], [], [])
  | (name, m) :: rest =>
      let r := gather full_stats rest
      if m.is_distributed then
        match m.report full_stats with
        | .tup xs => (xs ++ r.1, name :: r.2.1, xs.length :: r.2.2)
        | .single _ => (r.1, name :: r.2.1, 1 :: r.2.2)
      else r

/-- The scatter loop of `collect`: `zip(distributed_keys, distributed_lens)`
with a running `offset`.  A length-1 entry indexes `values[offset]`, an
`IndexError` (`none`) when past the end; any other length takes the slice
`values[offset : offset + clen]` (python slicing never fails, so a short slice
yields a short tuple).  Returns the ordered key/value reassignments. -/
def scatter (values : List ℚ) : List (String × Nat) → Nat → Option (List (String × RVal))
  | [], _ => some []
  | (k, clen) :: rest, off =>
      if clen = 1 then
        match values.get? off with
        | none => none
        | some v => (scatter values rest (off + 1)).map (fun l => (k, .single v) :: l)
      else
        (scatter values rest (off + clen)).map
          (fun l => (k, .tup ((values.drop off).take clen)) :: l)

/-- `vals[k] = v` on the result dict (the key is present; order is kept). -/
def setVal (vals : List (String × RVal)) (k : String) (v : RVal) :
    List (String × RVal) :=
  vals.map fun p => if p.1 = k then (p.1, v) else p

/-- Apply the scatter reassignments in order. -/
def setVals (vals : List (String × RVal)) : List (String × RVal) → List (String × RVal)
  | [] => vals
  | (k, v) :: rest => setVals (setVal vals k v) rest

/-- `MetricsContext.collect(is_distributed, full_stats)`.  The distributed
communication step (`.cuda()`, `torch.distributed.all_reduce`, division by
`get_world_size()`) lies outside this repository and is abstracted as `sync`,
which averages a flat list element-wise across the process group and may fail
(no device, no initialized group).  In the source a single loop interleaves
the per-metric gather step with that metric's `reset_states()`; the reset
never affects a later iteration's report (`vals` is computed beforehand), so
the loop is split here into `gather` plus a reset of every metric.  The result
pairs the outcome (the returned mapping, or `error` when python raises) with
the context state at return/raise time. -/
def MetricsContext.collect (c : MetricsContext) (sync : List ℚ → Except Unit (List ℚ))
    (is_distributed full_stats : Bool) :
    Except Unit (List (String × RVal)) × MetricsContext :=
  let vals := c.metrics.map fun p => (p.1, p.2.report full_stats)
  let g := gather full_stats c.metrics
  let outcome : Except Unit (List (String × RVal)) :=
    if is_distributed then
      match sync g.1 with
      | .error e => .error e
      | .ok values =>
          match scatter values (g.2.1.zip g.2.2) 0 with
          | none => .error ()
          | some ups => .ok (setVals vals ups)
    else .ok vals
  (outcome, ⟨c.metrics.map fun p => (p.1, p.2.reset_states)⟩)

lemma lookup_append_of_eq_none {β : Type} (l1 l2 : List (String × β)) (a : String)
    (h : l1.lookup a = none) : (l1 ++ l2).lookup a = l2.lookup a := by
  induction l1 with
  | nil => rfl
  | cons p rest ih =>
      rw [List.cons_append]
      cases hb : (a == p.1) with
      | true =>
          exfalso
          rw [show (p :: rest).lookup a = some p.2 by
            simp [List.lookup, hb]] at h
          exact Option.noConfusion h
      | false =>
          rw [show (p :: rest).lookup a = rest.lookup a by
            simp [List.lookup, hb]] at h
          simp only [List.lookup, hb]
          exact ih h

lemma MetricsContext.log_fst (c : MetricsContext) (name : String)
    (args : List MValue) (w : Option ℚ) (fs : Bool) (h : 0 < args.length) :
    (c.log name args w fs).1 =
      match (c.getitem name).1.update_state args w with
      | some m' => CallResult.updated m'
      | none => CallResult.error := by
  cases hm : (c.getitem name).1.update_state args w with
  | none => simp [MetricsContext.log, Metric.call, h, hm]
  | some m' => simp [MetricsContext.log, Metric.call, h, hm]

end Metrics

open Metrics

/-- C2 counterexample: a single `update_state(value=2, weight=3)` makes
`report()` return `2/3`, not the claimed `(2*3)/3 = 2` — `update_state` adds
the raw value to `cumsum`, it does not multiply by the weight. -/
theorem C2_counterexample :
    (Mean.updates (Mean.new false) [(MValue.scalar 2, some 3)]).map
        (fun m => m.report false) = some (RVal.single (2 / 3)) ∧
      RVal.single ((2 : ℚ) / 3) ≠ RVal.single ((2 * 3) / 3) := by
  constructor
  · norm_num [Mean.updates, Mean.update_state, MValue.item, Mean.new, Mean.report]
  · intro h
    rw [RVal.single.injEq] at h
    norm_num at h

/-- C2 (amended): after scalar updates with explicit weights `(v_i, w_i)` whose
weights do not sum to zero, `report(full_stats=False)` returns
`sum(v_i) / sum(w_i)` (the raw values are summed, not multiplied by their
weights); and a freshly reset `Mean` reports `0`. -/
theorem C2_weighted_mean (l : List (ℚ × ℚ)) (h : (l.map Prod.snd).sum ≠ 0) :
    (Mean.updates (Mean.new false) (l.map fun p => (MValue.scalar p.1, some p.2))).map
        (fun m => m.report false) =
      some (RVal.single ((l.map Prod.fst).sum / (l.map Prod.snd).sum)) ∧
      (Mean.new false).report false = RVal.single 0 := by
  refine ⟨?_, rfl⟩
  rw [Mean.updates_weighted]
  simp [Mean.report, Mean.new, h]

/-- C2 witness: the amended statement at the concrete input `[(2,3)]`. -/
theorem C2_weighted_mean_witness :
    (Mean.updates (Mean.new false) ([((2 : ℚ), (3 : ℚ))].map fun p =>
        (MValue.scalar p.1, some p.2))).map (fun m => m.report false) =
      some (RVal.single (([((2 : ℚ), (3 : ℚ))].map Prod.fst).sum /
        ([((2 : ℚ), (3 : ℚ))].map Prod.snd).sum)) ∧
      (Mean.new false).report false = RVal.single 0 :=
  C2_weighted_mean [(2, 3)] (by norm_num)

/-- C6: one unweighted array update with values `[a_1..a_n]` leaves the `Mean`
in exactly the state produced by `n` unweighted scalar updates (each of
implicit weight 1), hence all later reports agree. -/
theorem C6_batch_equiv (m : Mean) (xs : List ℚ) :
    m.update_state (.arr xs) none =
      Mean.updates m (xs.map fun x => (MValue.scalar x, none)) := by
  rw [Mean.updates_unweighted]
  rfl

/-- C3 counterexample: a `max`-fold-accumulator updated once with `-1` reports
`0` (the fold is seeded with the reset value `0.0`), not the maximum `-1` of
the supplied values. -/
theorem C3_counterexample :
    (AccumulatedMetric.updates (AccumulatedMetric.init none (some max) false)
        [MValue.scalar (-1)]).map (fun m => m.report false) = some 0 ∧
      (0 : ℚ) ≠ -1 := by
  constructor
  · simp [AccumulatedMetric.updates, AccumulatedMetric.update_state,
      AccumulatedMetric.init, MValue.item, AccumulatedMetric.report]
  · norm_num

/-- C3 (amended): after any non-empty sequence of scalar updates `xs`, a
generic `AccumulatedMetric` with combine function `max` reports the running
maximum of the reset value `0.0` and the updated values, i.e.
`List.foldl max 0 xs` — which equals the maximum of `xs` only when that
maximum is nonnegative. -/
theorem C3_running_max (xs : List ℚ) (h : xs ≠ []) :
    (AccumulatedMetric.updates (AccumulatedMetric.init none (some max) false)
        (xs.map MValue.scalar)).map (fun m => m.report false) =
      some (xs.foldl max 0) := by
  rw [show AccumulatedMetric.init none (some max) false =
        (⟨false, some max, 0⟩ : AccumulatedMetric) from rfl,
    AccumulatedMetric.updates_scalars]
  rfl

/-- C3 witness: the amended statement at the concrete input `[2]`. -/
theorem C3_running_max_witness :
    (AccumulatedMetric.updates (AccumulatedMetric.init none (some max) false)
        ([(2 : ℚ)].map MValue.scalar)).map (fun m => m.report false) =
      some ([(2 : ℚ)].foldl max 0) :=
  C3_running_max [2] (by simp)

/-- C7: a generic `AccumulatedMetric` constructed without `accumulate_fn` fails
on the very first `update_state` call of any update sequence (the combine
function is `None`), while `LastValue` keeps its class-defined combine — any
externally supplied `accumulate_fn` leaves it unchanged — and its updates
store the new value. -/
theorem C7_config_error (d : Bool) (v : MValue) (vs : List MValue)
    (fn : Option (ℚ → ℚ → ℚ)) (x : ℚ) :
    (AccumulatedMetric.init none none d).update_state v = none ∧
    AccumulatedMetric.updates (AccumulatedMetric.init none none d) (v :: vs) = none ∧
    LastValue.init fn d = LastValue.init none d ∧
    (LastValue.init fn d).update_state (.scalar x) =
      some { LastValue.init fn d with value := x } := by
  refine ⟨rfl, ?_, rfl, rfl⟩
  simp [AccumulatedMetric.updates, AccumulatedMetric.init,
    AccumulatedMetric.update_state]

/-- C8: `ctx[name]` implements get-or-create and never raises a key-not-found
error: the returned aggregator is exactly the one stored in the returned
context; a present key returns its stored aggregator with the context
unchanged; an absent key returns a fresh default `Mean`, appended to the
mapping under that key. -/
theorem C8_get_or_create (c : MetricsContext) (idx : String) :
    (c.getitem idx).2.metrics.lookup idx = some (c.getitem idx).1 ∧
    (∀ m, c.metrics.lookup idx = some m → c.getitem idx = (m, c)) ∧
    (c.metrics.lookup idx = none →
      (c.getitem idx).1 = Metric.mean (Mean.new false) ∧
      (c.getitem idx).2.metrics = c.metrics ++ [(idx, Metric.mean (Mean.new false))]) := by
  cases h : c.metrics.lookup idx with
  | some m =>
      refine ⟨?_, ?_, ?_⟩
      · simp [MetricsContext.getitem, h]
      · intro m' hm'
        cases hm'
        simp [MetricsContext.getitem, h]
      · intro hn
        exact Option.noConfusion hn
  | none =>
      refine ⟨?_, ?_, ?_⟩
      · simp only [MetricsContext.getitem, h]
        rw [lookup_append_of_eq_none _ _ _ h]
        simp [List.lookup]
      · intro m' hm'
        exact Option.noConfusion hm'
      · intro _
        simp [MetricsContext.getitem, h]

/-- C8 witness: reading `"a"` in an empty context creates and stores a fresh
default `Mean`. -/
theorem C8_get_or_create_witness :
    ((⟨[]⟩ : MetricsContext).getitem "a").1 = Metric.mean (Mean.new false) ∧
    ((⟨[]⟩ : MetricsContext).getitem "a").2.metrics =
      ([] : List (String × Metric)) ++ [("a", Metric.mean (Mean.new false))] :=
  (C8_get_or_create ⟨[]⟩ "a").2.2 rfl

/-- C9: the membership test `name in context` always answers `true`, and has
the side effect of inserting a fresh default `Mean` when the key was absent
(the context is unchanged when the key is present). -/
theorem C9_contains_always_true (c : MetricsContext) (idx : String) :
    (c.contains idx).1 = true ∧
    (c.contains idx).2.metrics =
      (match c.metrics.lookup idx with
       | none => c.metrics ++ [(idx, Metric.mean (Mean.new false))]
       | some _ => c.metrics) := by
  refine ⟨rfl, ?_⟩
  cases h : c.metrics.lookup idx with
  | none => simp [MetricsContext.contains, MetricsContext.getitem, h]
  | some m => simp [MetricsContext.contains, MetricsContext.getitem, h]

/-- C4 counterexample: `log("x")` with no positional arguments invokes
`report`, not `update_state` — `Metric.__call__` dispatches on the presence of
positional arguments, and here returns the fresh `Mean`'s report `0`. -/
theorem C4_counterexample :
    ((⟨[]⟩ : MetricsContext).log "x" [] none false).1 =
      CallResult.reported (RVal.single 0) := by
  simp [MetricsContext.log, MetricsContext.getitem, Metric.call, Metric.report,
    Mean.new, Mean.report, List.lookup]

/-- C4 (amended): whenever at least one positional argument is supplied,
`log(name, *args, **kwargs)` resolves or lazily creates the aggregator for
`name` and forwards all the arguments to its `update_state`, never invoking
`report`; with no positional arguments `Metric.__call__` dispatches to
`report` instead. -/
theorem C4_log_updates (c : MetricsContext) (name : String) (args : List MValue)
    (w : Option ℚ) (fs : Bool) (h : args ≠ []) :
    (∀ v, (c.log name args w fs).1 ≠ CallResult.reported v) ∧
    (∀ m', (c.getitem name).1.update_state args w = some m' →
      (c.log name args w fs).1 = CallResult.updated m') := by
  have hl : 0 < args.length := List.length_pos.2 h
  constructor
  · intro v hv
    rw [MetricsContext.log_fst c name args w fs hl] at hv
    cases hm : (c.getitem name).1.update_state args w <;> rw [hm] at hv <;>
      exact CallResult.noConfusion hv
  · intro m' hm
    rw [MetricsContext.log_fst c name args w fs hl, hm]

/-- C4 witness: the amended statement at a concrete input with one positional
argument. -/
theorem C4_log_updates_witness :
    ((⟨[]⟩ : MetricsContext).log "y" [MValue.scalar 1] none false).1 ≠
      CallResult.reported (RVal.single 0) :=
  (C4_log_updates ⟨[]⟩ "y" [MValue.scalar 1] none false (by simp)).1 (RVal.single 0)

/-- C5: every `collect` call returns with every managed aggregator in its
post-reset zeroed state (whether or not distributed synchronization ran), so a
subsequent `report()` with no intervening updates returns the zero value:
`0` for a `Mean` (zero samples) and `0.0` for a fold-accumulator. -/
theorem C5_collect_resets (c : MetricsContext) (sync : List ℚ → Except Unit (List ℚ))
    (d fs : Bool) :
    (c.collect sync d fs).2.metrics =
        c.metrics.map (fun p => (p.1, p.2.reset_states)) ∧
    ((c.collect sync d fs).2.metrics.all fun p =>
      decide (p.2.report false = RVal.single 0)) = true := by
  refine ⟨rfl, ?_⟩
  rw [show (c.collect sync d fs).2.metrics =
        c.metrics.map (fun p => (p.1, p.2.reset_states)) from rfl]
  rw [List.all_map]
  apply List.all_eq_true.2
  intro p _
  rcases p with ⟨name, m⟩
  cases m with
  | mean m =>
      simp [Function.comp, Metric.reset_states, Metric.report, Mean.reset_states,
        Mean.report]
  | accum m =>
      simp [Function.comp, Metric.reset_states, Metric.report,
        AccumulatedMetric.reset_states, AccumulatedMetric.report]

/-- C10: if `collect(is_distributed=True)` fails in the distributed
synchronization step, every managed aggregator has already been reset before
the failure propagates: the state accompanying the error is the post-reset
state, and the pre-collect accumulated values are not restored. -/
theorem C10_no_rollback (c : MetricsContext) (sync : List ℚ → Except Unit (List ℚ))
    (fs : Bool) (h : (c.collect sync true fs).1 = Except.error ()) :
    (c.collect sync true fs).2.metrics =
      c.metrics.map fun p => (p.1, p.2.reset_states) := rfl

/-- C10 witness: a context holding one distributed `Mean` with accumulated
data, collected while the all-reduce fails — the error is raised and the
surviving state is the zeroed one. -/
theorem C10_no_rollback_witness :
    (MetricsContext.collect ⟨[("m", Metric.mean ⟨true, 5, 2⟩)]⟩
        (fun _ => Except.error ()) true false).2.metrics =
      [("m", Metric.mean ⟨true, 0, 0⟩)] :=
  (C10_no_rollback ⟨[("m", Metric.mean ⟨true, 5, 2⟩)]⟩
    (fun _ => Except.error ()) false rfl).trans rfl

/-- C1 at the failing input: a context holding a single distributed `Mean`
that reports one scalar (`full_stats=False`).  The gather loop records the key
and a length of `1` but appends nothing to the flat sequence (the `else`
branch of the loop body has no append of `vals[name]`), so the claimed
one-scalar contribution is missing; the scatter step then indexes past the end
of the empty reduced sequence, and `collect(is_distributed=True)` fails with
an `IndexError` even when the all-reduce returns its input unchanged. -/
theorem C1_gather_drops_scalar :
    gather false [("m", Metric.mean ⟨true, 4, 2⟩)] = ([], ["m"], [1]) ∧
    (MetricsContext.collect ⟨[("m", Metric.mean ⟨true, 4, 2⟩)]⟩
        Except.ok true false).1 = Except.error () := by
  have hr : (Metric.mean ⟨true, 4, 2⟩).report false = RVal.single 2 := by
    norm_num [Metric.report, Mean.report]
  have hg : gather false [("m", Metric.mean ⟨true, 4, 2⟩)] = ([], ["m"], [1]) := by
    simp [gather, Metric.is_distributed, hr]
  refine ⟨hg, ?_⟩
  simp [MetricsContext.collect, hg, scatter]
